import Mathlib

/-
Verification of the ContractGuard analysis pipeline (src/app.py, src/webhook.py).

Python strings are modelled as lists of characters (`Str`): Python `len`,
slicing, concatenation and `str.split` on code points correspond exactly to
`List.length`, `List.take`, `++` and the explicit-separator split below.
Python byte strings are modelled as `List (Fin 256)`.
-/

set_option maxRecDepth 10000

abbrev Str := List Char

/-- The paragraph separator "\n\n" used by `split_into_chunks` and by the
map-reduce join in the payment redirect handler of app.py. -/
def sepNN : Str := ['\n', '\n']

/-- Helper for `splitParas`: prepend a character to the first piece of a
split result (the split of a nonempty tail is never empty). -/
def consHead (c : Char) : List Str → List Str
  | [] => [[c]]
  | p :: ps => (c :: p) :: ps

/-- Python `text.split("\n\n")` (app.py line 224): split on every occurrence
of the two-character separator, scanning left to right, non-overlapping,
keeping empty pieces; the empty string splits to one empty piece. -/
def splitParas : Str → List Str
  | [] => [[]]
  | [c] => [[c]]
  | c :: d :: rest =>
    if c = '\n' ∧ d = '\n' then [] :: splitParas rest
    else consHead c (splitParas (d :: rest))

/-- The accumulation loop of `split_into_chunks` (app.py lines 226-234):
greedily pack paragraphs into `current` while `len(current) + len(para) + 2`
stays within `max_chars`; otherwise push `current` (even when empty) and
restart from the paragraph; finally push `current` when nonempty
(Python truthiness of the trailing `if current:`). -/
def chunkLoop (max_chars : Nat) : List Str → Str → List Str → List Str
  | [], current, chunks => if current ≠ [] then chunks ++ [current] else chunks
  | para :: ps, current, chunks =>
    if current.length + para.length + 2 ≤ max_chars then
      chunkLoop max_chars ps (current ++ para ++ sepNN) chunks
    else
      chunkLoop max_chars ps (para ++ sepNN) (chunks ++ [current])

/-- app.py lines 220-235: `split_into_chunks(text, max_chars=15000)`. The
call sites in the redirect handler use the default budget 15000. -/
def split_into_chunks (text : Str) (max_chars : Nat) : List Str :=
  chunkLoop max_chars (splitParas text) [] []

/-
Fingerprinter (app.py lines 56-71, extract_text_and_hash): the fingerprint is
`hashlib.sha256(file_bytes).hexdigest()`. SHA-256 is implemented below per
FIPS 180-4 on 32-bit words represented as Nat reduced mod 2^32; the three
standard test vectors ("" and "abc" and 100*"a") were checked against the
reference digests while developing this embedding, and the empty-input digest
is proved below.
-/

/-- Right rotation of a 32-bit word held in a Nat. -/
def rotr32 (n x : Nat) : Nat :=
  ((x % 2 ^ 32) / 2 ^ n) + ((x % 2 ^ n) * 2 ^ (32 - n)) % 2 ^ 32

/-- Logical right shift of a 32-bit word held in a Nat. -/
def shr32 (n x : Nat) : Nat := (x % 2 ^ 32) / 2 ^ n

/-- FIPS 180-4 sigma0 message-schedule function. -/
def smallSigma0 (x : Nat) : Nat := (rotr32 7 x) ^^^ (rotr32 18 x) ^^^ (shr32 3 x)

/-- FIPS 180-4 sigma1 message-schedule function. -/
def smallSigma1 (x : Nat) : Nat := (rotr32 17 x) ^^^ (rotr32 19 x) ^^^ (shr32 10 x)

/-- FIPS 180-4 Sigma0 round function. -/
def bigSigma0 (x : Nat) : Nat := (rotr32 2 x) ^^^ (rotr32 13 x) ^^^ (rotr32 22 x)

/-- FIPS 180-4 Sigma1 round function. -/
def bigSigma1 (x : Nat) : Nat := (rotr32 6 x) ^^^ (rotr32 11 x) ^^^ (rotr32 25 x)

/-- The 64 SHA-256 round constants K (FIPS 180-4: the fractional parts of
the cube roots of the first 64 primes), written in decimal. -/
def shaK : List Nat :=
  [1116352408, 1899447441, 3049323471, 3921009573, 961987163, 1508970993, 2453635748,
   2870763221, 3624381080, 310598401, 607225278, 1426881987, 1925078388, 2162078206, 2614888103,
   3248222580, 3835390401, 4022224774, 264347078, 604807628, 770255983, 1249150122, 1555081692,
   1996064986, 2554220882, 2821834349, 2952996808, 3210313671, 3336571891, 3584528711,
   113926993, 338241895, 666307205, 773529912, 1294757372, 1396182291, 1695183700, 1986661051,
   2177026350, 2456956037, 2730485921, 2820302411, 3259730800, 3345764771, 3516065817,
   3600352804, 4094571909, 275423344, 430227734, 506948616, 659060556, 883997877, 958139571,
   1322822218, 1537002063, 1747873779, 1955562222, 2024104815, 2227730452, 2361852424,
   2428436474, 2756734187, 3204031479, 3329325298]

/-- The eight 32-bit working variables of the SHA-256 compression state. -/
structure H8 where
  a : Nat
  b : Nat
  c : Nat
  d : Nat
  e : Nat
  f : Nat
  g : Nat
  h : Nat
deriving DecidableEq

/-- The SHA-256 initial hash value (FIPS 180-4: the fractional parts of the
square roots of the first 8 primes), written in decimal. -/
def shaInit : H8 :=
  ⟨1779033703, 3144134277, 1013904242, 2773480762, 1359893119, 2600822924, 528734635, 1541459225⟩

/-- SHA-256 padding: append 0x80, zero-fill to 56 mod 64 bytes, then the
message bit length as 8 big-endian bytes. -/
def padMessage (msg : List Nat) : List Nat :=
  let L := msg.length
  let bitLen := 8 * L
  msg ++ [0x80] ++ List.replicate ((119 - L % 64) % 64) 0 ++
    [(bitLen / 2 ^ 56) % 256, (bitLen / 2 ^ 48) % 256, (bitLen / 2 ^ 40) % 256,
     (bitLen / 2 ^ 32) % 256, (bitLen / 2 ^ 24) % 256, (bitLen / 2 ^ 16) % 256,
     (bitLen / 2 ^ 8) % 256, bitLen % 256]

/-- Split a padded message into 64-byte blocks; the fuel argument (the list
length suffices) keeps the recursion structural so it reduces in the kernel. -/
def toBlocksFuel : Nat → List Nat → List (List Nat)
  | 0, _ => []
  | _, [] => []
  | fuel + 1, l => l.take 64 :: toBlocksFuel fuel (l.drop 64)

/-- Split a padded message into its 64-byte blocks. -/
def toBlocks (l : List Nat) : List (List Nat) := toBlocksFuel l.length l

/-- Parse a 64-byte block into 16 big-endian 32-bit words. -/
def words16 (block : List Nat) : List Nat :=
  (List.range 16).map fun i =>
    block.getD (4 * i) 0 * 2 ^ 24 + block.getD (4 * i + 1) 0 * 2 ^ 16 +
      block.getD (4 * i + 2) 0 * 2 ^ 8 + block.getD (4 * i + 3) 0

/-- Next word of the SHA-256 message schedule. -/
def nextW (ws : List Nat) : Nat :=
  let n := ws.length
  (ws.getD (n - 16) 0 + smallSigma0 (ws.getD (n - 15) 0) + ws.getD (n - 7) 0 +
    smallSigma1 (ws.getD (n - 2) 0)) % 2 ^ 32

/-- Extend the 16 block words to the 64-word message schedule. -/
def schedule (block : List Nat) : List Nat :=
  (List.range 48).foldl (fun ws _ => ws ++ [nextW ws]) (words16 block)

/-- One SHA-256 compression round; `kw` is the (round constant, schedule word)
pair for this round. -/
def round32 (st : H8) (kw : Nat × Nat) : H8 :=
  let t1 := (st.h + bigSigma1 st.e + ((st.e &&& st.f) ^^^ ((st.e ^^^ 0xffffffff) &&& st.g)) +
    kw.1 + kw.2) % 2 ^ 32
  let t2 := (bigSigma0 st.a + ((st.a &&& st.b) ^^^ (st.a &&& st.c) ^^^ (st.b &&& st.c))) % 2 ^ 32
  ⟨(t1 + t2) % 2 ^ 32, st.a, st.b, st.c, (st.d + t1) % 2 ^ 32, st.e, st.f, st.g⟩

/-- Compress one 64-byte block into the running hash state. -/
def compressBlock (st : H8) (block : List Nat) : H8 :=
  let r := (shaK.zip (schedule block)).foldl round32 st
  ⟨(st.a + r.a) % 2 ^ 32, (st.b + r.b) % 2 ^ 32, (st.c + r.c) % 2 ^ 32, (st.d + r.d) % 2 ^ 32,
   (st.e + r.e) % 2 ^ 32, (st.f + r.f) % 2 ^ 32, (st.g + r.g) % 2 ^ 32, (st.h + r.h) % 2 ^ 32⟩

/-- SHA-256 of a byte message, as the final eight-word state. -/
def sha256H8 (msg : List Nat) : H8 := (toBlocks (padMessage msg)).foldl compressBlock shaInit

/-- Nibble `k` (from the most significant, k = 7 .. 0) of a 32-bit word. -/
def nib (w k : Nat) : Fin 16 := ⟨(w / 16 ^ k) % 16, Nat.mod_lt _ (by norm_num)⟩

/-- The eight hex nibbles of a 32-bit word, most significant first. -/
def wordNibs (w : Nat) : List (Fin 16) :=
  [nib w 7, nib w 6, nib w 5, nib w 4, nib w 3, nib w 2, nib w 1, nib w 0]

/-- The 64 hex nibbles of the SHA-256 digest of a byte string. -/
def digestNibs (b : List (Fin 256)) : List (Fin 16) :=
  let s := sha256H8 (b.map Fin.val)
  wordNibs s.a ++ wordNibs s.b ++ wordNibs s.c ++ wordNibs s.d ++
    wordNibs s.e ++ wordNibs s.f ++ wordNibs s.g ++ wordNibs s.h

/-- Lower-case hex character of a nibble, as Python hexdigest produces. -/
def nibChar (n : Fin 16) : Char := ("0123456789abcdef").data.getD n.val 'x'

/-- app.py line 61: `hashlib.sha256(file_bytes).hexdigest()` — the fingerprint
of a byte string, a 64-character lower-case hex string. -/
def sha256_hexdigest (b : List (Fin 256)) : Str := (digestNibs b).map nibChar

/-- app.py lines 56-71: `extract_text_and_hash` returns the extracted text and
the fingerprint. Text extraction (pdfplumber / python-docx) is the external
Extractor collaborator of spec section 6, passed in as a function; the
fingerprint is computed from the raw bytes before extraction. -/
def extract_text_and_hash (extract : List (Fin 256) → Str) (file_bytes : List (Fin 256)) :
    Str × Str :=
  (extract file_bytes, sha256_hexdigest file_bytes)

/-- The digest of a byte string viewed as a function from nibble positions to
nibble values; its codomain is finite, which is what forces collisions to
exist over the infinite space of byte strings. -/
def digestFun (b : List (Fin 256)) : Fin 64 → Fin 16 :=
  fun i => (digestNibs b).getD i.val ⟨0, by norm_num⟩

/-
Persistent Store model. The three Supabase tables of app.py (section 5 of the
source: uploaded_contracts, paid_files, summaries) are lists of rows; rows
carry the columns the source reads and writes (`created_at` timestamps are
written but never read by any logic, so they are omitted). `Store.status` is
the HTTP status code the store collaborator currently returns to REST reads:
200 when the store is available, anything else when it is not, mirroring the
`r.status_code in (200, 201)` test of `supabase_get`.
-/

/-- A row of the uploaded_contracts table: file_hash and extracted text. -/
structure UploadedRow where
  file_hash : Str
  text : Str
deriving DecidableEq

/-- A row of the paid_files table (written by src/webhook.py). -/
structure PaidRow where
  file_hash : Str
  email : Str
deriving DecidableEq

/-- A row of the summaries table: file_hash and generated summary. -/
structure SummaryRow where
  file_hash : Str
  summary : Str
deriving DecidableEq

/-- The Persistent Store collaborator: the three tables plus the HTTP status
it currently answers read requests with. -/
structure Store where
  status : Nat
  uploaded : List UploadedRow
  paid : List PaidRow
  summaries : List SummaryRow
deriving DecidableEq

/-- app.py lines 136-146: `supabase_get` returns the response body on status
200 or 201 and silently returns the empty list on any other status. `body`
is the row list the store's REST endpoint answers for the request's filter
query (for `?file_hash=eq.H` queries, the rows whose file_hash equals H). -/
def supabase_get {α : Type} (status : Nat) (body : List α) : List α :=
  if status = 200 ∨ status = 201 then body else []

/-- app.py lines 148-157 with spec section 6: `supabase_insert` posts a row;
with `Prefer: resolution=merge-duplicates` (upsert=True) the store merges on
the key — here the row replaces an existing row with the same file_hash —
and with `Prefer: return=representation` (upsert=False) the row is appended.
The merge-on-conflict behaviour of the collaborator is taken from spec
section 6 ("Writes are upsert-by-key (merge on conflict, not append)"). -/
def supabase_insert {α : Type} (hashOf : α → Str) (table : List α) (row : α)
    (upsert : Bool) : List α :=
  if upsert then
    if table.any (fun r => hashOf r == hashOf row) then
      table.map fun r => if hashOf r == hashOf row then row else r
    else table ++ [row]
  else table ++ [row]

/-- app.py lines 159-164: `file_already_paid` queries paid_files for the hash
and reports whether any row came back. -/
def file_already_paid (store : Store) (file_hash : Str) : Bool :=
  decide ((supabase_get store.status
    (store.paid.filter fun r => r.file_hash == file_hash)).length > 0)

/-- app.py lines 166-173: `get_summary_by_hash` queries summaries for the hash
and returns the first row's summary, or the empty string when no row (or a
failed request) came back. -/
def get_summary_by_hash (store : Store) (file_hash : Str) : Str :=
  match supabase_get store.status
      (store.summaries.filter fun r => r.file_hash == file_hash) with
  | [] => []
  | r :: _ => r.summary

/-- Modelled from the spec: `get_contract_text_by_hash` is called by the
history sidebar (app.py line 252) and the payment redirect handler (line 278)
but is defined nowhere in the repository. Spec section 6 gives the store
interface `raw_text[fingerprint] -> text` over the uploaded_contracts table;
mirroring `get_summary_by_hash`, it returns the first matching row's text and
the empty string when no row matches. -/
def get_contract_text_by_hash (store : Store) (file_hash : Str) : Str :=
  match supabase_get store.status
      (store.uploaded.filter fun r => r.file_hash == file_hash) with
  | [] => []
  | r :: _ => r.text

/-- app.py lines 175-180: `save_uploaded_contract` upserts the extracted text
keyed by file_hash (upsert=True). -/
def save_uploaded_contract (store : Store) (file_hash text : Str) : Store :=
  { store with
    uploaded := supabase_insert (fun r => r.file_hash) store.uploaded
      ⟨file_hash, text⟩ true }

/-- app.py lines 182-187: `save_summary` upserts the generated summary keyed
by file_hash (upsert=True). -/
def save_summary (store : Store) (file_hash summary : Str) : Store :=
  { store with
    summaries := supabase_insert (fun r => r.file_hash) store.summaries
      ⟨file_hash, summary⟩ true }

/-- src/webhook.py lines 30-54: on a verified checkout.session.completed event
carrying a file_hash, the webhook posts the payment row to paid_files with
`Prefer: return=representation` — a plain insert, not a merge-duplicates
upsert. -/
def webhook_record_payment (paid : List PaidRow) (file_hash email : Str) : List PaidRow :=
  supabase_insert (fun r => r.file_hash) paid ⟨file_hash, email⟩ false

/-
Chunked Summarizer and Pipeline Orchestrator. The LLM endpoint collaborator is
a function from the full prompt to `Option Str`: `some text` on success, `none`
when the call raises (timeout, rate limit, malformed response). Each model
function returns alongside its result the list of prompts it sent to the LLM,
so LLM calls can be counted; `analyze_contract` issues exactly one call per
invocation, as in the source.
-/

/-- app.py lines 75-86: the English prompt template (a Python triple-quoted
string opening and closing with a newline). -/
def promptEn : Str :=
  ("\nYou are a senior legal advisor specializing in contract review. Provide a professional, concise summary of the following contract in English:\n\n1. Summary of key clauses: Payment Terms, Termination, Scope of Work, and any others found.\n2. Identify unclear or risky language with specific quotes and short explanations.\n3. Assign a Risk Level (Low / Medium / High) with reasoning.\n4. Provide direct suggestions for improvements or negotiation points a freelancer or small business should consider.\n\nRespond in markdown format with clear headers and bullet points.\n\nContract:\n").data

/-- app.py lines 87-98: the Spanish prompt template. -/
def promptEs : Str :=
  ("\nEres un asesor legal experimentado especializado en revisión de contratos. Proporciona un resumen profesional y conciso del siguiente contrato en Español:\n\n1. Resumen de cláusulas clave: Términos de pago, Terminación, Alcance del trabajo y otras que se identifiquen.\n2. Identifica lenguaje ambiguo o de riesgo con citas específicas y breves explicaciones.\n3. Asigna un nivel de riesgo (Bajo / Medio / Alto) con razonamiento.\n4. Proporciona sugerencias directas para mejoras o puntos de negociación que un freelancer o pequeña empresa debería considerar.\n\nResponde en formato markdown con encabezados claros y viñetas.\n\nContrato:\n").data

/-- app.py lines 99-110: the Portuguese prompt template. -/
def promptPt : Str :=
  ("\nVocê é um consultor jurídico experiente especializado em revisão de contratos. Forneça um resumo profissional e conciso do seguinte contrato em Português:\n\n1. Resumo das cláusulas principais: Termos de Pagamento, Rescisão, Escopo do Trabalho e outras encontradas.\n2. Identifique linguagem ambígua ou de risco com citações específicas e breves explicações.\n3. Atribua um Nível de Risco (Baixo / Médio / Alto) com justificativa.\n4. Forneça sugestões diretas para melhorias ou pontos de negociação que um freelancer ou pequena empresa deve considerar.\n\nResponda em formato markdown com títulos claros e marcadores.\n\nContrato:\n").data

/-- app.py line 121: `PROMPT_TEMPLATES.get(lang, PROMPT_TEMPLATES["en"])`. -/
def PROMPT_TEMPLATES (lang : Str) : Str :=
  if lang == ("es").data then promptEs
  else if lang == ("pt").data then promptPt
  else promptEn

/-- app.py lines 117-132: `analyze_contract` builds the prompt, truncates the
text to its first 8000 characters, and issues one chat-completion call. On
success it returns the response content; on an exception it shows an error
banner and returns the empty string. The second component is the log of
prompts sent (always exactly one). -/
def analyze_contract (llm : Str → Option Str) (lang text : Str) : Str × List Str :=
  let full_prompt := PROMPT_TEMPLATES lang ++ text.take 8000
  (match llm full_prompt with
   | some r => r
   | none => [],
   [full_prompt])

/-- The mutable Streamlit session state fields the analysis pipeline touches
(app.py lines 44-52; user_email, checkout_url and history are UI-only and
never influence the pipeline, so they are omitted). -/
structure Session where
  contract_text : Str
  uploaded_filename : Str
  analysis_output : Str
  file_hash : Str
  language : Str
  last_hash : Str
deriving DecidableEq

/-- What a single request run amounts to, classifying which branch of the
script was taken: the spec's AnalysisOutcome. `noAction` is the branch where
the script neither shows a result, prompts payment, nor computes. -/
inductive Outcome where
  | cachedResult (text : Str)
  | needsPayment
  | computed (text : Str)
  | noAction
deriving DecidableEq

/-- Result of one request run: final session state, final store state, the
log of LLM prompts issued, and the outcome. -/
structure RunResult where
  session : Session
  store : Store
  log : List Str
  outcome : Outcome
deriving DecidableEq

/-- app.py lines 276-304, the payment redirect handler: runs when the request
carries `success` and `hash` query parameters. `qhash` is the first value of
the `hash` parameter (`st.query_params.get("hash")[0]` over the legacy
list-valued query-parameter API). The handler loads the stored text, and if
some is found either shows the existing summary or — without any
`file_already_paid` check — chunks the text, runs the map-reduce summarizer
and caches the result. -/
def runRedirect (llm : Str → Option Str) (store : Store) (session : Session)
    (qhash : Str) : RunResult :=
  let file_hash := qhash
  let text := get_contract_text_by_hash store file_hash
  if text ≠ [] then
    let s1 : Session :=
      { session with
        contract_text := text
        file_hash := file_hash
        uploaded_filename := ("Recovered after payment").data }
    let existing := get_summary_by_hash store file_hash
    if existing ≠ [] then
      ⟨{ s1 with analysis_output := existing }, store, [], Outcome.cachedResult existing⟩
    else
      let chunks := split_into_chunks text 15000
      if chunks.length = 1 then
        let r := analyze_contract llm session.language text
        ⟨{ s1 with analysis_output := r.1 }, save_summary store file_hash r.1, r.2,
          Outcome.computed r.1⟩
      else
        let parts := chunks.map (analyze_contract llm session.language)
        let combined := List.intercalate sepNN (parts.map Prod.fst)
        let r := analyze_contract llm session.language combined
        ⟨{ s1 with analysis_output := r.1 }, save_summary store file_hash r.1,
          (parts.map Prod.snd).flatten ++ r.2, Outcome.computed r.1⟩
  else ⟨session, store, [], Outcome.noAction⟩

/-- app.py lines 306-367, the upload and preview flow for a request where a
file was uploaded: store the extracted text (upsert), load any existing
summary into the session, then in the preview section read the payment state
and either show the existing summary, prompt for payment, or do nothing (a
paid fingerprint with no cached summary falls through every branch — the
upload flow never invokes the summarizer). `name`, `text` and `file_hash` are
the uploaded file's name and the output of `extract_text_and_hash`. -/
def runUpload (store : Store) (session : Session) (name text file_hash : Str) : RunResult :=
  let s1 : Session :=
    { session with
      contract_text := text
      uploaded_filename := name
      file_hash := file_hash
      analysis_output := [] }
  let store1 := save_uploaded_contract store file_hash text
  let s2 : Session := { s1 with last_hash := file_hash }
  let existing := get_summary_by_hash store1 file_hash
  let s3 : Session :=
    if existing ≠ [] then { s2 with analysis_output := existing } else s2
  if s3.contract_text ≠ [] then
    let already_paid := file_already_paid store1 file_hash
    if s3.analysis_output ≠ [] then
      ⟨s3, store1, [], Outcome.cachedResult s3.analysis_output⟩
    else if already_paid = false then
      ⟨s3, store1, [], Outcome.needsPayment⟩
    else ⟨s3, store1, [], Outcome.noAction⟩
  else ⟨s3, store1, [], Outcome.noAction⟩

/-
Concrete fixtures used to evaluate the model on explicit inputs: a fresh
session (the session-state defaults of app.py lines 44-52), an always-failing
and an always-succeeding LLM endpoint, and a store holding one uploaded
contract with no payment record and no cached summary.
-/

/-- Fresh session: the setdefault values of app.py lines 44-52. -/
def session0 : Session := ⟨[], [], [], [], ("en").data, []⟩

/-- An LLM endpoint whose every call succeeds with a fixed response. -/
def llmOk : Str → Option Str := fun _ => some ("LLM OUTPUT").data

/-- An LLM endpoint whose every call raises (timeout / rate limit). -/
def llmFail : Str → Option Str := fun _ => none

/-- A healthy store holding one uploaded contract with fingerprint "h1",
no payment record and no cached summary. -/
def storeA : Store := ⟨200, [⟨("h1").data, ("Pay me now.").data⟩], [], []⟩

/-- A two-paragraph text whose chunking at budget 15000 yields exactly two
chunks (each paragraph is 14000 characters). -/
def twoParaText : Str :=
  List.replicate 14000 'A' ++ '\n' :: '\n' :: List.replicate 14000 'B'

/-- A single paragraph of 15001 characters, exceeding the 15000 budget by
itself. -/
def bigParaText : Str := List.replicate 15001 'A'

/-- The store state after a fresh upload of text under fingerprint `h` (an
append, since the fingerprint is fresh) followed by the webhook recording a
payment for `h`: the state from which the post-payment request runs. -/
def storeAfterPayment (store : Store) (h text e : Str) : Store :=
  { store with
      uploaded := store.uploaded ++ [⟨h, text⟩]
      paid := webhook_record_payment store.paid h e }

/-
Lemmas about paragraph splitting and the chunk accumulation loop.
-/

theorem splitParas_cons_ne (c : Char) (l : Str) (hc : c ≠ '\n') :
    splitParas (c :: l) = consHead c (splitParas l) := by
  cases l with
  | nil => rfl
  | cons d rest =>
    show splitParas (c :: d :: rest) = _
    rw [splitParas]
    rw [if_neg (by intro h; exact hc h.1)]

theorem splitParas_ne_nil (l : Str) : splitParas l ≠ [] := by
  induction l using splitParas.induct with
  | case1 => simp [splitParas]
  | case2 c => simp [splitParas]
  | case3 c d rest h ih =>
    rw [splitParas, if_pos h]
    simp
  | case4 c d rest h ih =>
    rw [splitParas, if_neg h]
    cases hs : splitParas (d :: rest) with
    | nil => exact absurd hs ih
    | cons p ps => simp [consHead]

theorem sum_splitParas (l : Str) :
    ((splitParas l).map fun p => p.length + 2).sum = l.length + 2 := by
  induction l using splitParas.induct with
  | case1 => simp [splitParas]
  | case2 c => simp [splitParas]
  | case3 c d rest h ih =>
    rw [splitParas, if_pos h]
    simp only [List.map_cons, List.sum_cons, ih, List.length_cons, List.length_nil]
    omega
  | case4 c d rest h ih =>
    rw [splitParas, if_neg h]
    cases hs : splitParas (d :: rest) with
    | nil => exact absurd hs (splitParas_ne_nil _)
    | cons p ps =>
      rw [hs] at ih
      simp only [consHead, List.map_cons, List.sum_cons, List.length_cons] at ih ⊢
      omega

theorem flatten_map_splitParas (l : Str) :
    ((splitParas l).map fun p => p ++ sepNN).flatten = l ++ sepNN := by
  induction l using splitParas.induct with
  | case1 => simp [splitParas]
  | case2 c => simp [splitParas]
  | case3 c d rest h ih =>
    rw [splitParas, if_pos h]
    simp only [List.map_cons, List.flatten_cons, ih, List.nil_append]
    obtain ⟨h1, h2⟩ := h
    subst h1 h2
    rfl
  | case4 c d rest h ih =>
    rw [splitParas, if_neg h]
    cases hs : splitParas (d :: rest) with
    | nil => exact absurd hs (splitParas_ne_nil _)
    | cons p ps =>
      rw [hs] at ih
      simp only [consHead, List.map_cons, List.flatten_cons, List.cons_append] at ih ⊢
      rw [← ih]

theorem chunkLoop_acc (m : Nat) (ps : List Str) (cur : Str) (A : List Str) :
    chunkLoop m ps cur A = A ++ chunkLoop m ps cur [] := by
  induction ps generalizing cur A with
  | nil =>
    by_cases h : cur ≠ [] <;> simp [chunkLoop, h]
  | cons p ps ih =>
    by_cases h : cur.length + p.length + 2 ≤ m
    · rw [chunkLoop, if_pos h, chunkLoop, if_pos h, ih]
    · rw [chunkLoop, if_neg h, chunkLoop, if_neg h, ih, ih (p ++ sepNN) ([] ++ [cur])]
      simp

theorem flatten_chunkLoop (m : Nat) (ps : List Str) (cur : Str) (A : List Str) :
    (chunkLoop m ps cur A).flatten = A.flatten ++ cur ++ (ps.map fun p => p ++ sepNN).flatten := by
  induction ps generalizing cur A with
  | nil =>
    by_cases h : cur ≠ [] <;> simp_all [chunkLoop]
  | cons p ps ih =>
    by_cases h : cur.length + p.length + 2 ≤ m
    · rw [chunkLoop, if_pos h, ih]
      simp
    · rw [chunkLoop, if_neg h, ih]
      simp

theorem chunkLoop_small (m : Nat) (ps : List Str) (cur : Str) (A : List Str)
    (hps : ps ≠ [])
    (hsum : cur.length + ((ps.map fun p => p.length + 2).sum) ≤ m) :
    chunkLoop m ps cur A = A ++ [cur ++ (ps.map fun p => p ++ sepNN).flatten] := by
  induction ps generalizing cur A with
  | nil => exact absurd rfl hps
  | cons p ps ih =>
    simp only [List.map_cons, List.sum_cons] at hsum
    have hle : cur.length + p.length + 2 ≤ m := by omega
    rw [chunkLoop, if_pos hle]
    cases ps with
    | nil =>
      rw [chunkLoop]
      rw [if_pos (by simp [sepNN])]
      simp
    | cons q qs =>
      rw [ih (cur ++ p ++ sepNN) A (by simp)
        (by simp only [List.length_append, sepNN, List.length_cons, List.length_nil]; omega)]
      simp

theorem chunkLoop_mem_acc (m : Nat) (ps : List Str) (cur a : Str) (A : List Str)
    (ha : a ∈ A) : a ∈ chunkLoop m ps cur A := by
  rw [chunkLoop_acc]
  exact List.mem_append_left _ ha

theorem chunkLoop_cur_big (m : Nat) (ps : List Str) (cur : Str) (A : List Str)
    (hbig : m < cur.length) : cur ∈ chunkLoop m ps cur A := by
  cases ps with
  | nil =>
    rw [chunkLoop, if_pos (by intro h; subst h; simp at hbig)]
    simp
  | cons p ps =>
    rw [chunkLoop, if_neg (by omega)]
    exact chunkLoop_mem_acc _ _ _ _ _ (by simp)

theorem chunkLoop_long_para (m : Nat) (ps : List Str) (cur p : Str) (A : List Str)
    (hp : p ∈ ps) (hbig : m < p.length + 2) : (p ++ sepNN) ∈ chunkLoop m ps cur A := by
  induction ps generalizing cur A with
  | nil => simp at hp
  | cons q qs ih =>
    rcases List.mem_cons.mp hp with rfl | hmem
    · rw [chunkLoop, if_neg (by omega)]
      exact chunkLoop_cur_big _ _ _ _ (by simp [sepNN]; omega)
    · by_cases h : cur.length + q.length + 2 ≤ m
      · rw [chunkLoop, if_pos h]; exact ih _ _ hmem
      · rw [chunkLoop, if_neg h]; exact ih _ _ hmem

theorem chunkLoop_len (m : Nat) (ps : List Str) (cur : Str) (A : List Str)
    (hcur : cur ≠ []) : A.length + 1 ≤ (chunkLoop m ps cur A).length := by
  induction ps generalizing cur A with
  | nil =>
    rw [chunkLoop, if_pos hcur]
    simp
  | cons p ps ih =>
    by_cases h : cur.length + p.length + 2 ≤ m
    · rw [chunkLoop, if_pos h]
      exact ih _ _ (by simp [sepNN])
    · rw [chunkLoop, if_neg h]
      have := ih (p ++ sepNN) (A ++ [cur]) (by simp [sepNN])
      simp only [List.length_append, List.length_cons, List.length_nil] at this ⊢
      omega

theorem split_into_chunks_flatten (text : Str) (m : Nat) :
    (split_into_chunks text m).flatten = text ++ sepNN := by
  rw [split_into_chunks, flatten_chunkLoop]
  simp [flatten_map_splitParas]

theorem split_into_chunks_small (text : Str) (m : Nat) (h : text.length + 2 ≤ m) :
    split_into_chunks text m = [text ++ sepNN] := by
  rw [split_into_chunks, chunkLoop_small m _ _ _ (splitParas_ne_nil text)
    (by rw [sum_splitParas]; simpa using h)]
  simp [flatten_map_splitParas]

/-
Lemmas about the fingerprint digest.
-/

theorem digestNibs_length (b : List (Fin 256)) : (digestNibs b).length = 64 := by
  simp [digestNibs, wordNibs]

theorem digestNibs_eq_of_digestFun_eq {b1 b2 : List (Fin 256)}
    (h : digestFun b1 = digestFun b2) : digestNibs b1 = digestNibs b2 := by
  apply List.ext_get (by rw [digestNibs_length, digestNibs_length])
  intro n h1 h2
  have hn : n < 64 := by rwa [digestNibs_length] at h1
  have hfun := congrFun h ⟨n, hn⟩
  simp only [digestFun] at hfun
  rw [List.getD_eq_getElem _ _ h1, List.getD_eq_getElem _ _ h2] at hfun
  simpa [List.get_eq_getElem] using hfun

/-
Lemmas used by the concrete witnesses and the pipeline claims.
-/

theorem splitParas_replicate (n : Nat) (c : Char) (hc : c ≠ '\n') :
    splitParas (List.replicate n c) = [List.replicate n c] := by
  induction n with
  | zero => rfl
  | succ n ih =>
    rw [List.replicate_succ, splitParas_cons_ne c _ hc, ih]
    rfl

theorem splitParas_replicate_append (n : Nat) (c : Char) (l : Str) (hc : c ≠ '\n') :
    splitParas (List.replicate n c ++ '\n' :: '\n' :: l) =
      List.replicate n c :: splitParas l := by
  induction n with
  | zero =>
    show splitParas ('\n' :: '\n' :: l) = _
    rw [splitParas, if_pos ⟨rfl, rfl⟩]
    rfl
  | succ n ih =>
    rw [List.replicate_succ, List.cons_append, splitParas_cons_ne c _ hc, ih]
    cases hs : splitParas l with
    | nil => exact absurd hs (splitParas_ne_nil _)
    | cons p ps => rfl

theorem supabase_insert_no_match {α : Type} (hashOf : α → Str) (table : List α) (row : α)
    (h : table.filter (fun r => hashOf r == hashOf row) = []) :
    supabase_insert hashOf table row true = table ++ [row] := by
  rw [supabase_insert, if_pos rfl, if_neg]
  intro hany
  obtain ⟨x, hx, hpx⟩ := List.any_eq_true.mp hany
  exact absurd (List.filter_eq_nil_iff.mp h x hx) (by simp [hpx])

theorem analyze_log_flatten (llm : Str → Option Str) (lang : Str) (chunks : List Str) :
    ((chunks.map (analyze_contract llm lang)).map Prod.snd).flatten =
      chunks.map fun c => PROMPT_TEMPLATES lang ++ c.take 8000 := by
  induction chunks with
  | nil => rfl
  | cons c cs ih =>
    simp only [List.map_cons, List.flatten_cons, ih]
    rfl

theorem runUpload_spec (store : Store) (session : Session) (name text h : Str)
    (htext : text ≠ []) :
    (runUpload store session name text h).store = save_uploaded_contract store h text ∧
    (runUpload store session name text h).log = [] ∧
    (runUpload store session name text h).outcome =
      (if get_summary_by_hash (save_uploaded_contract store h text) h ≠ [] then
        Outcome.cachedResult (get_summary_by_hash (save_uploaded_contract store h text) h)
      else if file_already_paid (save_uploaded_contract store h text) h = false then
        Outcome.needsPayment
      else Outcome.noAction) := by
  rw [runUpload]
  by_cases hex : get_summary_by_hash (save_uploaded_contract store h text) h ≠ []
  · rw [if_pos hex, if_pos hex, if_pos htext, if_pos hex]
    exact ⟨rfl, rfl, rfl⟩
  · rw [if_neg hex, if_neg hex, if_pos htext, if_neg (by simp)]
    by_cases hpaid : file_already_paid (save_uploaded_contract store h text) h = false
    · rw [if_pos hpaid, if_pos hpaid]
      exact ⟨rfl, rfl, rfl⟩
    · rw [if_neg hpaid, if_neg hpaid]
      exact ⟨rfl, rfl, rfl⟩

theorem runRedirect_cached (llm : Str → Option Str) (store : Store) (session : Session)
    (qhash s : Str)
    (htext : get_contract_text_by_hash store qhash ≠ [])
    (hex : get_summary_by_hash store qhash = s) (hs : s ≠ []) :
    runRedirect llm store session qhash =
      ⟨{ session with
          contract_text := get_contract_text_by_hash store qhash
          file_hash := qhash
          uploaded_filename := ("Recovered after payment").data
          analysis_output := s },
        store, [], Outcome.cachedResult s⟩ := by
  rw [runRedirect, if_pos htext, hex, if_pos hs]

theorem runRedirect_one_chunk (llm : Str → Option Str) (store : Store) (session : Session)
    (qhash text : Str)
    (hget : get_contract_text_by_hash store qhash = text) (htext : text ≠ [])
    (hsum : get_summary_by_hash store qhash = [])
    (h1 : (split_into_chunks text 15000).length = 1) :
    runRedirect llm store session qhash =
      ⟨{ session with
          contract_text := text
          file_hash := qhash
          uploaded_filename := ("Recovered after payment").data
          analysis_output := (analyze_contract llm session.language text).1 },
        save_summary store qhash (analyze_contract llm session.language text).1,
        (analyze_contract llm session.language text).2,
        Outcome.computed (analyze_contract llm session.language text).1⟩ := by
  rw [runRedirect, hget, if_pos htext, hsum, if_neg (by simp), if_pos h1]

theorem runRedirect_multi_chunk (llm : Str → Option Str) (store : Store) (session : Session)
    (qhash text : Str)
    (hget : get_contract_text_by_hash store qhash = text) (htext : text ≠ [])
    (hsum : get_summary_by_hash store qhash = [])
    (h1 : (split_into_chunks text 15000).length ≠ 1) :
    runRedirect llm store session qhash =
      ⟨{ session with
          contract_text := text
          file_hash := qhash
          uploaded_filename := ("Recovered after payment").data
          analysis_output := (analyze_contract llm session.language
            (List.intercalate sepNN ((split_into_chunks text 15000).map
              fun c => (analyze_contract llm session.language c).1))).1 },
        save_summary store qhash (analyze_contract llm session.language
          (List.intercalate sepNN ((split_into_chunks text 15000).map
            fun c => (analyze_contract llm session.language c).1))).1,
        ((split_into_chunks text 15000).map fun c =>
          PROMPT_TEMPLATES session.language ++ c.take 8000) ++
          (analyze_contract llm session.language
            (List.intercalate sepNN ((split_into_chunks text 15000).map
              fun c => (analyze_contract llm session.language c).1))).2,
        Outcome.computed (analyze_contract llm session.language
          (List.intercalate sepNN ((split_into_chunks text 15000).map
            fun c => (analyze_contract llm session.language c).1))).1⟩ := by
  rw [runRedirect, hget, if_pos htext, hsum, if_neg (by simp), if_neg h1]
  simp only [analyze_log_flatten]
  simp only [List.map_map]
  rfl

/-
Claim theorems.
-/

/-- Claim C1 (code bug in the payment redirect handler, app.py lines 276-304):
for fingerprint "h1", holding uploaded text but no PaymentRecord and no cached
AnalysisResult, the payment-success redirect carrying that fingerprint as a
client-supplied query parameter does not produce a payment prompt: the handler
invokes the summarizer (one LLM call) and writes an AnalysisResult without
ever consulting `file_already_paid`, contradicting the claim that such a
request always results in NeedsPayment with no summarizer call and no write. -/
theorem c1_redirect_computes_unpaid :
    file_already_paid storeA ("h1").data = false ∧
    get_summary_by_hash storeA ("h1").data = [] ∧
    (runRedirect llmOk storeA session0 ("h1").data).outcome =
      Outcome.computed ("LLM OUTPUT").data ∧
    (runRedirect llmOk storeA session0 ("h1").data).outcome ≠ Outcome.needsPayment ∧
    (runRedirect llmOk storeA session0 ("h1").data).log.length = 1 ∧
    (runRedirect llmOk storeA session0 ("h1").data).store.summaries =
      [⟨("h1").data, ("LLM OUTPUT").data⟩] := by
  decide

/-- Claim C2 (code bug in `analyze_contract` and the redirect handler): when
the LLM call fails, `analyze_contract` returns the empty string and the
redirect handler unconditionally caches it, so an empty AnalysisResult row IS
written to the summaries table, contradicting the claim that nothing is
written on failure. (The third conjunct records that the empty cached row
happens to read back as "no summary", so a retry does recompute — the
violation is the write itself.) -/
theorem c2_failure_caches_empty :
    (runRedirect llmFail storeA session0 ("h1").data).store.summaries =
      [⟨("h1").data, []⟩] ∧
    (runRedirect llmFail storeA session0 ("h1").data).outcome = Outcome.computed [] ∧
    get_summary_by_hash (runRedirect llmFail storeA session0 ("h1").data).store
      ("h1").data = [] := by
  decide

/-- Claim C3, counterexample: recording the same payment twice through the
webhook leaves the paid table in a different state from recording it once —
the webhook write is a plain insert, so the second recording appends a
duplicate row. -/
theorem c3_counterexample :
    webhook_record_payment
        (webhook_record_payment [] ("h1").data ("a@b").data) ("h1").data ("a@b").data ≠
      webhook_record_payment [] ("h1").data ("a@b").data := by
  decide

/-- Claim C3 (amended): the webhook's payment write is a plain append, not a
merge/upsert: recording a payment twice appends a second duplicate row rather
than leaving the table unchanged. However, authorization semantics are
idempotent: `file_already_paid` reports true after one recording and still
true (unchanged) after two. -/
theorem c3_amended (paid : List PaidRow) (h e : Str) :
    webhook_record_payment (webhook_record_payment paid h e) h e =
      webhook_record_payment paid h e ++ [⟨h, e⟩] ∧
    file_already_paid
      ⟨200, [], webhook_record_payment (webhook_record_payment paid h e) h e, []⟩ h = true ∧
    file_already_paid ⟨200, [], webhook_record_payment paid h e, []⟩ h = true := by
  refine ⟨rfl, ?_, ?_⟩ <;>
    simp [file_already_paid, supabase_get, webhook_record_payment, supabase_insert,
      List.filter_append]

/-- Claim C4, counterexample: for a fingerprint whose PaymentRecord exists but
whose summary is not yet cached, a plain upload request does not compute the
analysis: it falls through every branch (no payment prompt, no result, no LLM
call), so "the next process call computes and returns the analysis" is false
for the upload entry path. -/
theorem c4_counterexample :
    (runUpload ⟨200, [], [⟨("h1").data, ("a@b").data⟩], []⟩ session0
      ("c.pdf").data ("Pay me now.").data ("h1").data).outcome = Outcome.noAction ∧
    (runUpload ⟨200, [], [⟨("h1").data, ("a@b").data⟩], []⟩ session0
      ("c.pdf").data ("Pay me now.").data ("h1").data).log = [] := by
  decide

/-- Claim C4 (amended): for a fresh fingerprint (no uploaded text, no
PaymentRecord, no cached result), an upload request returns NeedsPayment with
no LLM call and no summary write; after a PaymentRecord is recorded by the
webhook, a further plain upload returns neither prompt nor result (noAction),
and it is the payment-success redirect request for that fingerprint that
computes, returns and caches the analysis, assuming the summarizer succeeds. -/
theorem c4_amended (f : Str → Str) (store : Store) (session : Session)
    (name text h e : Str)
    (hstatus : store.status = 200)
    (hup : store.uploaded.filter (fun r => r.file_hash == h) = [])
    (hpaid : store.paid.filter (fun r => r.file_hash == h) = [])
    (hsum : store.summaries.filter (fun r => r.file_hash == h) = [])
    (htext : text ≠ []) :
    (runUpload store session name text h).outcome = Outcome.needsPayment ∧
    (runUpload store session name text h).log = [] ∧
    (runUpload store session name text h).store =
      { store with uploaded := store.uploaded ++ [⟨h, text⟩] } ∧
    (runUpload (storeAfterPayment store h text e) session name text h).outcome =
      Outcome.noAction ∧
    (∃ out,
      (runRedirect (fun p => some (f p))
          (storeAfterPayment store h text e) session h).outcome =
        Outcome.computed out ∧
      get_summary_by_hash
        (runRedirect (fun p => some (f p))
          (storeAfterPayment store h text e) session h).store h = out) := by
  have hsave : save_uploaded_contract store h text =
      { store with uploaded := store.uploaded ++ [⟨h, text⟩] } := by
    rw [save_uploaded_contract, supabase_insert_no_match _ _ _ hup]
  have hsum1 : get_summary_by_hash (save_uploaded_contract store h text) h = [] := by
    rw [hsave]
    simp [get_summary_by_hash, supabase_get, hstatus, hsum]
  have hpaid1 : file_already_paid (save_uploaded_contract store h text) h = false := by
    rw [hsave]
    simp [file_already_paid, supabase_get, hstatus, hpaid]
  obtain ⟨hst, hlog, hout⟩ := runUpload_spec store session name text h htext
  refine ⟨?_, hlog, by rw [hst, hsave], ?_, ?_⟩
  · rw [hout, hsum1, if_neg (by simp), if_pos hpaid1]
  · obtain ⟨hst2, hlog2, hout2⟩ := runUpload_spec
      (storeAfterPayment store h text e) session name text h htext
    rw [hout2]
    have hs2 : get_summary_by_hash
        (save_uploaded_contract (storeAfterPayment store h text e) h text) h = [] := by
      simp [get_summary_by_hash, save_uploaded_contract, storeAfterPayment,
        supabase_get, hstatus, hsum]
    have hp2 : file_already_paid
        (save_uploaded_contract (storeAfterPayment store h text e) h text) h = true := by
      simp [file_already_paid, save_uploaded_contract, storeAfterPayment,
        supabase_get, hstatus, webhook_record_payment, supabase_insert,
        List.filter_append, hpaid]
    rw [hs2, if_neg (by simp), hp2]
    simp
  · have hget2 : get_contract_text_by_hash (storeAfterPayment store h text e) h = text := by
      simp [get_contract_text_by_hash, storeAfterPayment, supabase_get, hstatus,
        List.filter_append, hup]
    have hsum2 : get_summary_by_hash (storeAfterPayment store h text e) h = [] := by
      simp [get_summary_by_hash, storeAfterPayment, supabase_get, hstatus, hsum]
    have hread : ∀ out : Str, get_summary_by_hash
        (save_summary (storeAfterPayment store h text e) h out) h = out := by
      intro out
      rw [save_summary, supabase_insert_no_match _ _ _ hsum]
      simp [get_summary_by_hash, storeAfterPayment, supabase_get, hstatus,
        List.filter_append, hsum]
    by_cases hc : (split_into_chunks text 15000).length = 1
    · rw [runRedirect_one_chunk _ _ _ _ _ hget2 htext hsum2 hc]
      exact ⟨_, rfl, hread _⟩
    · rw [runRedirect_multi_chunk _ _ _ _ _ hget2 htext hsum2 hc]
      exact ⟨_, rfl, hread _⟩

/-- Claim C4, witness: the amended claim evaluated on a concrete fresh
fingerprint, an empty store and an always-succeeding LLM. -/
theorem c4_witness :
    (runUpload ⟨200, [], [], []⟩ session0 ("c.pdf").data ("Pay me now.").data
      ("h1").data).outcome = Outcome.needsPayment ∧
    (runUpload ⟨200, [⟨("h1").data, ("Pay me now.").data⟩],
        [⟨("h1").data, ("a@b").data⟩], []⟩ session0 ("c.pdf").data
      ("Pay me now.").data ("h1").data).outcome = Outcome.noAction ∧
    (∃ out,
      (runRedirect (fun _ => some ("LLM OUTPUT").data)
        ⟨200, [⟨("h1").data, ("Pay me now.").data⟩],
          [⟨("h1").data, ("a@b").data⟩], []⟩ session0 ("h1").data).outcome =
        Outcome.computed out ∧
      get_summary_by_hash (runRedirect (fun _ => some ("LLM OUTPUT").data)
        ⟨200, [⟨("h1").data, ("Pay me now.").data⟩],
          [⟨("h1").data, ("a@b").data⟩], []⟩ session0 ("h1").data).store
        ("h1").data = out) := by
  have := c4_amended (fun _ => ("LLM OUTPUT").data) ⟨200, [], [], []⟩ session0
    ("c.pdf").data ("Pay me now.").data ("h1").data ("a@b").data rfl rfl rfl rfl
    (by decide)
  exact ⟨this.1, this.2.2.2.1, this.2.2.2.2⟩

/-- Claim C5 (confirmed): a fingerprint that already has a nonempty cached
AnalysisResult gets it back on both entry paths — the upload flow returns
CachedResult with no LLM call, and the redirect handler (when the stored
text loads) likewise returns the cached summary with no LLM call — for every
store, in particular ones where `file_already_paid` is false: payment is
never re-demanded for already-analyzed content. -/
theorem c5_cached_result (llm : Str → Option Str) (store : Store) (session : Session)
    (name text h s : Str)
    (hsum : get_summary_by_hash store h = s) (hs : s ≠ []) (htext : text ≠ []) :
    ((runUpload store session name text h).outcome = Outcome.cachedResult s ∧
     (runUpload store session name text h).log = []) ∧
    (get_contract_text_by_hash store h ≠ [] →
      (runRedirect llm store session h).outcome = Outcome.cachedResult s ∧
      (runRedirect llm store session h).log = []) := by
  obtain ⟨hst, hlog, hout⟩ := runUpload_spec store session name text h htext
  have hkeep : get_summary_by_hash (save_uploaded_contract store h text) h =
      get_summary_by_hash store h := rfl
  constructor
  · refine ⟨?_, hlog⟩
    rw [hout, hkeep, hsum, if_pos hs]
  · intro hct
    rw [runRedirect_cached llm store session h s hct hsum hs]
    exact ⟨rfl, rfl⟩

/-- Claim C5, witness: a store with a cached summary for "h1" and an empty
paid table (so `file_already_paid` is false), on both entry paths. -/
theorem c5_witness :
    file_already_paid ⟨200, [⟨("h1").data, ("Pay me now.").data⟩], [],
      [⟨("h1").data, ("CACHED").data⟩]⟩ ("h1").data = false ∧
    (runUpload ⟨200, [⟨("h1").data, ("Pay me now.").data⟩], [],
        [⟨("h1").data, ("CACHED").data⟩]⟩ session0 ("c.pdf").data
      ("Pay me now.").data ("h1").data).outcome =
      Outcome.cachedResult ("CACHED").data ∧
    (runRedirect llmFail ⟨200, [⟨("h1").data, ("Pay me now.").data⟩], [],
        [⟨("h1").data, ("CACHED").data⟩]⟩ session0 ("h1").data).outcome =
      Outcome.cachedResult ("CACHED").data ∧
    (runRedirect llmFail ⟨200, [⟨("h1").data, ("Pay me now.").data⟩], [],
        [⟨("h1").data, ("CACHED").data⟩]⟩ session0 ("h1").data).log = [] := by
  have := c5_cached_result llmFail ⟨200, [⟨("h1").data, ("Pay me now.").data⟩], [],
    [⟨("h1").data, ("CACHED").data⟩]⟩ session0 ("c.pdf").data ("Pay me now.").data
    ("h1").data ("CACHED").data rfl (by decide) (by decide)
  exact ⟨by decide, this.1.1, (this.2 (by decide)).1, (this.2 (by decide)).2⟩

/-- Claim C6, counterexample: the single chunk produced for a short text is
not the original text — every paragraph gets "\n\n" appended, so the chunk is
the text plus a trailing separator; and a text of length 6 with a budget of 7
(shorter than the budget) splits into two chunks, because the loop's
`len(current) + len(para) + 2` bookkeeping counts a trailing separator. -/
theorem c6_counterexample :
    (split_into_chunks ("hello").data 15000 = [("hello\n\n").data] ∧
      split_into_chunks ("hello").data 15000 ≠ [("hello").data]) ∧
    (("ab\n\ncd").data.length < 7 ∧ (split_into_chunks ("ab\n\ncd").data 7).length = 2) := by
  refine ⟨⟨by decide, by decide⟩, by decide, by decide⟩

/-- Claim C6 (amended): for every text with `length + 2 ≤ budget`, chunking
yields exactly one chunk equal to the text with the trailing separator "\n\n"
appended; for every text, the chunks concatenated in order equal the text
followed by "\n\n" — the paragraph sequence is reproduced exactly, with no
loss or reordering; and a single paragraph longer than the budget is kept
intact (with its trailing separator) in its own chunk. -/
theorem c6_amended (text : Str) (B : Nat) :
    (text.length + 2 ≤ B → split_into_chunks text B = [text ++ sepNN]) ∧
    (split_into_chunks text B).flatten = text ++ sepNN ∧
    (∀ p ∈ splitParas text, B < p.length → (p ++ sepNN) ∈ split_into_chunks text B) := by
  refine ⟨split_into_chunks_small text B, split_into_chunks_flatten text B, ?_⟩
  intro p hp hbig
  exact chunkLoop_long_para _ _ _ _ _ hp (by omega)

/-- Claim C6, witness: the amended claim at concrete inputs — "hi" within a
budget of 100 yields the single chunk "hi\n\n", and the paragraph "hello"
against a budget of 3 lands intact in its own chunk. -/
theorem c6_witness :
    (("hi").data.length + 2 ≤ 100 ∧
      split_into_chunks ("hi").data 100 = [("hi").data ++ sepNN]) ∧
    (("hello").data ∈ splitParas ("hello").data ∧ 3 < ("hello").data.length ∧
      (("hello").data ++ sepNN) ∈ split_into_chunks ("hello").data 3) :=
  ⟨⟨by decide, (c6_amended ("hi").data 100).1 (by decide)⟩,
   ⟨by decide, by decide, (c6_amended ("hello").data 3).2.2 _ (by decide) (by decide)⟩⟩

/-- Claim C7 (confirmed): in the redirect handler's compute path (text loads,
no cached summary), a text that chunks to exactly one chunk triggers exactly
one LLM call, and a text that chunks to exactly two chunks triggers exactly
three LLM calls (one per chunk, then one reduce call over the partial
findings joined with the blank-line separator), the returned result being the
reduce call's output only. -/
theorem c7_call_counts (llm : Str → Option Str) (store : Store) (session : Session)
    (qhash text : Str)
    (hget : get_contract_text_by_hash store qhash = text)
    (htext : text ≠ [])
    (hsum : get_summary_by_hash store qhash = []) :
    ((split_into_chunks text 15000).length = 1 →
      (runRedirect llm store session qhash).log.length = 1) ∧
    ((split_into_chunks text 15000).length = 2 →
      (runRedirect llm store session qhash).log.length = 3 ∧
      (runRedirect llm store session qhash).outcome = Outcome.computed
        (analyze_contract llm session.language
          (List.intercalate sepNN ((split_into_chunks text 15000).map
            fun c => (analyze_contract llm session.language c).1))).1) := by
  constructor
  · intro h1
    rw [runRedirect_one_chunk llm store session qhash text hget htext hsum h1]
    rfl
  · intro h2
    rw [runRedirect_multi_chunk llm store session qhash text hget htext hsum (by omega)]
    refine ⟨?_, rfl⟩
    simp [h2, analyze_contract]

theorem append_sepNN_ne_nil (x : Str) : x ++ sepNN ≠ [] := by
  intro hcontra
  have hlen := congrArg List.length hcontra
  simp [sepNN] at hlen

theorem append_cons_ne_nil (x : Str) (c : Char) (y : Str) : x ++ c :: y ≠ [] := by
  intro hcontra
  have hlen := congrArg List.length hcontra
  simp at hlen

theorem twoParaText_chunks :
    split_into_chunks twoParaText 15000 =
      [List.replicate 14000 'A' ++ sepNN, List.replicate 14000 'B' ++ sepNN] := by
  rw [split_into_chunks, twoParaText, splitParas_replicate_append _ _ _ (by decide),
    splitParas_replicate _ _ (by decide)]
  rw [chunkLoop, if_pos (by simp only [List.length_nil, List.length_replicate]; omega)]
  rw [chunkLoop, if_neg (by
    simp only [sepNN, List.length_append, List.length_replicate, List.length_cons,
      List.length_nil]
    omega)]
  rw [chunkLoop, if_pos (append_sepNN_ne_nil _)]
  simp only [List.nil_append, List.singleton_append]

/-- Claim C7, witness: the call-count theorem applied to a concrete
two-paragraph text that chunks to exactly two chunks (three LLM calls) and to
a concrete short text that chunks to one chunk (one LLM call). -/
theorem c7_witness :
    (split_into_chunks twoParaText 15000).length = 2 ∧
    (runRedirect llmOk ⟨200, [⟨("h2").data, twoParaText⟩], [], []⟩ session0
      ("h2").data).log.length = 3 ∧
    (split_into_chunks ("short contract").data 15000).length = 1 ∧
    (runRedirect llmOk ⟨200, [⟨("h3").data, ("short contract").data⟩], [], []⟩ session0
      ("h3").data).log.length = 1 := by
  have h2 : (split_into_chunks twoParaText 15000).length = 2 := by
    rw [twoParaText_chunks]
    rfl
  have htext : twoParaText ≠ [] := by
    rw [twoParaText]
    exact append_cons_ne_nil _ _ _
  refine ⟨h2, ?_, by decide, ?_⟩
  · exact ((c7_call_counts llmOk ⟨200, [⟨("h2").data, twoParaText⟩], [], []⟩ session0
      ("h2").data twoParaText rfl htext rfl).2 h2).1
  · exact (c7_call_counts llmOk ⟨200, [⟨("h3").data, ("short contract").data⟩], [], []⟩
      session0 ("h3").data ("short contract").data rfl (by decide) rfl).1 (by decide)

/-- Claim C8 (code bug in supabase_get): when the Persistent Store is
unavailable (here a 500 response), `supabase_get` silently returns the empty
list, so `file_already_paid` answers "no payment record" and
`get_summary_by_hash` answers "no cached summary" for a fingerprint that
actually has both (as the healthy-store conjunct shows); no warning is
surfaced and the operation is not aborted, contradicting the claim that a
store failure is surfaced and never converted into a successful answer. -/
theorem c8_store_failure_swallowed :
    supabase_get 500 [(⟨("h1").data, ("a@b").data⟩ : PaidRow)] = [] ∧
    file_already_paid ⟨500, [], [⟨("h1").data, ("a@b").data⟩],
      [⟨("h1").data, ("CACHED").data⟩]⟩ ("h1").data = false ∧
    get_summary_by_hash ⟨500, [], [⟨("h1").data, ("a@b").data⟩],
      [⟨("h1").data, ("CACHED").data⟩]⟩ ("h1").data = [] ∧
    file_already_paid ⟨200, [], [⟨("h1").data, ("a@b").data⟩],
      [⟨("h1").data, ("CACHED").data⟩]⟩ ("h1").data = true := by
  decide

/-- Claim C9, counterexample (proof of the negation of the injectivity half):
the fingerprint is a fixed-length digest, so over the infinite space of byte
strings there exist two distinct byte strings with equal fingerprints, by
pigeonhole over the finite space of 64-nibble digests; "called on two
differing byte strings returns different values" therefore cannot hold for
every pair. -/
theorem c9_counterexample :
    ∃ b1 b2 : List (Fin 256), b1 ≠ b2 ∧ sha256_hexdigest b1 = sha256_hexdigest b2 := by
  obtain ⟨b1, b2, hne, heq⟩ := Finite.exists_ne_map_eq_of_infinite digestFun
  exact ⟨b1, b2, hne, by
    rw [sha256_hexdigest, sha256_hexdigest, digestNibs_eq_of_digestFun_eq heq]⟩

/-- Claim C9 (amended): the fingerprint function is pure and deterministic —
equal byte strings always yield equal fingerprints — it yields a fixed-length
64-hex-character digest for every input, and it is well-defined for empty
input, where it equals the standard SHA-256 digest of zero bytes. Distinct
byte strings may in principle collide (see the counterexample, by pigeonhole),
which SHA-256 makes computationally infeasible to exhibit but which rules out
the claim's universal injectivity. -/
theorem c9_amended :
    (∀ b1 b2 : List (Fin 256), b1 = b2 → sha256_hexdigest b1 = sha256_hexdigest b2) ∧
    (∀ b : List (Fin 256), (sha256_hexdigest b).length = 64) ∧
    sha256_hexdigest [] =
      ("e3b0c44298fc1c149afbf4c8996fb92427ae41e4649b934ca495991b7852b855").data := by
  refine ⟨fun b1 b2 hb => by rw [hb], fun b => ?_, by decide⟩
  rw [sha256_hexdigest, List.length_map, digestNibs_length]

/-- Claim C9, witness: determinism applied at a concrete byte string and the
fixed digest length at the empty input. -/
theorem c9_witness :
    sha256_hexdigest [(⟨97, by norm_num⟩ : Fin 256)] =
      sha256_hexdigest [(⟨97, by norm_num⟩ : Fin 256)] ∧
    (sha256_hexdigest []).length = 64 :=
  ⟨c9_amended.1 _ _ rfl, c9_amended.2.1 []⟩

/-- Claim C10 (confirmed): for any text whose first paragraph alone exceeds
the chunk budget (paragraph length + 2 > 15000), `split_into_chunks` emits
the empty string as its first chunk (the loop pushes the still-empty
`current`), the chunk list has at least two entries, and the redirect
pipeline's map phase then issues an LLM call whose payload is the prompt
template applied to the empty chunk. -/
theorem c10_empty_first_chunk (llm : Str → Option Str) (store : Store) (session : Session)
    (qhash text : Str)
    (hget : get_contract_text_by_hash store qhash = text)
    (htext : text ≠ [])
    (hsum : get_summary_by_hash store qhash = [])
    (hbig : 15000 < (splitParas text).headI.length + 2) :
    (split_into_chunks text 15000).head? = some [] ∧
    2 ≤ (split_into_chunks text 15000).length ∧
    (PROMPT_TEMPLATES session.language ++ ([] : Str).take 8000) ∈
      (runRedirect llm store session qhash).log := by
  obtain ⟨p, rest, hps⟩ : ∃ p rest, splitParas text = p :: rest := by
    cases hps : splitParas text with
    | nil => exact absurd hps (splitParas_ne_nil _)
    | cons p rest => exact ⟨p, rest, rfl⟩
  rw [hps] at hbig
  have hbig' : 15000 < p.length + 2 := hbig
  have hsplit : split_into_chunks text 15000 =
      [] :: chunkLoop 15000 rest (p ++ sepNN) [] := by
    rw [split_into_chunks, hps, chunkLoop,
      if_neg (by simp only [List.length_nil]; omega)]
    rw [chunkLoop_acc]
    rfl
  have hlen : 2 ≤ (split_into_chunks text 15000).length := by
    rw [split_into_chunks, hps, chunkLoop,
      if_neg (by simp only [List.length_nil]; omega)]
    have := chunkLoop_len 15000 rest (p ++ sepNN) ([] ++ [[]]) (by simp [sepNN])
    simpa using this
  have hne1 : (split_into_chunks text 15000).length ≠ 1 := by omega
  refine ⟨by rw [hsplit]; rfl, hlen, ?_⟩
  rw [runRedirect_multi_chunk llm store session qhash text hget htext hsum hne1]
  apply List.mem_append_left
  apply List.mem_map_of_mem
  rw [hsplit]
  exact List.mem_cons_self _ _

/-- Claim C10, witness: a single 15001-character paragraph, stored for
fingerprint "h4": the chunk list starts with the empty chunk and the map
phase sends the bare prompt to the LLM. -/
theorem c10_witness :
    15000 < (splitParas bigParaText).headI.length + 2 ∧
    (split_into_chunks bigParaText 15000).head? = some [] ∧
    2 ≤ (split_into_chunks bigParaText 15000).length ∧
    (PROMPT_TEMPLATES session0.language ++ ([] : Str).take 8000) ∈
      (runRedirect llmOk ⟨200, [⟨("h4").data, bigParaText⟩], [], []⟩ session0
        ("h4").data).log := by
  have hbig : 15000 < (splitParas bigParaText).headI.length + 2 := by
    rw [bigParaText, splitParas_replicate _ _ (by decide)]
    show 15000 < (List.replicate 15001 'A').length + 2
    rw [List.length_replicate]
    omega
  have htext : bigParaText ≠ [] := by
    intro hcontra
    have hlen := congrArg List.length hcontra
    rw [bigParaText, List.length_replicate, List.length_nil] at hlen
    omega
  have := c10_empty_first_chunk llmOk ⟨200, [⟨("h4").data, bigParaText⟩], [], []⟩
    session0 ("h4").data bigParaText rfl htext rfl hbig
  exact ⟨hbig, this.1, this.2.1, this.2.2⟩
